import Mathlib

/-!
Verification development for the `ReferenceManager` of this repository
(`src/editor/util/ReferenceManager.js`).

The JavaScript source is shallowly embedded below.  The core pieces are:

* `jsSplit` — JS `String.prototype.split(' ')` on the `rid` attribute;
* `computeLabels` — the order/label computation loop of
  `_updateCitationLabels` (positions by first citation, labels for
  bibliography entries and citation markers);
* `getBibliography` — entity enrichment plus the sort by `state.pos`
  with the source's boolean comparator `(a, b) => a.state.pos > b.state.pos`;
* `updateCitationLabels` — the full recompute: short-circuit on zero
  in-scope markers, label computation, node-state write-back and the
  aggregated change notification;
* `isRelevantOp` / `needsUpdateLoop` — the change classifier of
  `_onDocumentChange`;
* `ctrlStep` — the scheduling behaviour of `_onDocumentChange`
  (every relevant notification enqueues one deferred recompute via
  `setTimeout`; the host scheduler later runs the queued callbacks).

Modelling notes, recorded once here:

* Node-transient state (`xref.state.label`, `ref.state.{label,pos,entity}`)
  is modelled as functions from node id to state, updated with
  `Function.update`; an `Option` value `none` models a JS field that is
  absent/`undefined`.
* Each xref node is modelled with the values of its `ref-type` and `rid`
  attributes; the embedding assumes those attributes are present
  (their values may be `""`), which is the shape the claims quantify over.
* The document is assumed to contain a `ref-list` node (otherwise the JS
  crashes at `refList.id`, outside every claim's scope).
* JS `Array.prototype.sort` with the source's comparator is not a
  consistent comparator (it returns `true`/`false`, coerced to `1`/`0`,
  never `-1`), so ECMAScript leaves the result implementation-defined.
  We model it as a stable sort (`jsSort`, an insertion sort) that keeps
  the relative order of any two elements the comparator does not
  strictly order — in particular elements the comparator maps to `0`.
* The source's `labelGenerator.getLabel` is polymorphic over a single
  number and an array of numbers; the model splits it into
  `getLabelOne` and `getLabelList`.
-/

namespace RefMgr

/-- Models JS `String.prototype.split(sep)` for a single-character
separator: `"" ↦ [""]`, adjacent separators produce empty fields. -/
def jsSplitAux (sep : Char) : List Char → List Char → List String
  | [], cur => [String.mk cur.reverse]
  | c :: cs, cur =>
      if c = sep then String.mk cur.reverse :: jsSplitAux sep cs []
      else jsSplitAux sep cs (c :: cur)

/-- JS `s.split(' ')`, used on the `rid` attribute of a citation marker. -/
def jsSplit (s : String) : List String := jsSplitAux ' ' s.toList []

/-- Association-list lookup, modelling a JS plain-object map
(`order[id]`, `refLabels[id]`, `xrefLabels[id]`); `none` models
`undefined`. -/
def lookupA {β : Type} (l : List (String × β)) (k : String) : Option β :=
  (l.find? (fun p => p.1 == k)).map (·.2)

/-- The configured label generator (external collaborator).  The JS
`getLabel` accepts a single number or an array of numbers; the model
splits the two call shapes. -/
structure LabelGenerator where
  getLabelOne : Nat → String
  getLabelList : List Nat → String

/-- An `xref` node: its id and the values of its `ref-type` and `rid`
attributes. -/
structure Xref where
  id : String
  refType : String
  rid : String
deriving DecidableEq, Repr

/-- A `ref-list > ref` node: its id and the value of its `rid`
attribute (the entity-database key). -/
structure RefNode where
  id : String
  rid : String
deriving DecidableEq, Repr

/-- Transient `ref.state`: computed label, computed position, cached
entity record.  `none` models an absent/`undefined` field. -/
structure RefState where
  label : Option String
  pos : Option Nat
  entity : Option String
deriving DecidableEq, Repr

/-- The document as the ReferenceManager reads and writes it: the xref
nodes in document order, the `ref-list > ref` children in document
order, the `ref-list` node id, and the transient node state. -/
@[ext] structure DocState where
  xrefs : List Xref
  refs : List RefNode
  refListId : String
  xrefLabel : String → Option String
  refState : String → RefState

/-- `doc.findAll("xref[ref-type='bibr']")`: the in-scope citation
markers, in document order. -/
def inScopeXrefs (d : DocState) : List Xref :=
  d.xrefs.filter (fun x => x.refType == "bibr")

/-- Accumulator of the `_updateCitationLabels` loop: the running
position counter `pos` (starts at 1), the `order` map and the
`refLabels` map, as insertion-ordered association lists. -/
structure OAcc where
  pos : Nat
  order : List (String × Nat)
  refLabels : List (String × String)
deriving DecidableEq, Repr

/-- One rid of one marker:
`if (!order.hasOwnProperty(id)) { order[id] = pos++;
refLabels[id] = labelGenerator.getLabel(order[id]) }`;
returns the updated accumulator and the value `order[id]` pushed onto
`numbers`. -/
def ridStep (gen : LabelGenerator) (a : OAcc) (id : String) : OAcc × Nat :=
  match lookupA a.order id with
  | some p => (a, p)
  | none =>
      (⟨a.pos + 1, a.order ++ [(id, a.pos)],
        a.refLabels ++ [(id, gen.getLabelOne a.pos)]⟩, a.pos)

/-- The rid loop threaded with the marker's `numbers` list. -/
def ridsStep (gen : LabelGenerator) (an : OAcc × List Nat) (id : String) :
    OAcc × List Nat :=
  let r := ridStep gen an.1 id
  (r.1, an.2 ++ [r.2])

/-- One marker of the `xrefs.forEach` loop: fold that marker's rids,
then `xrefLabels[xref.id] = labelGenerator.getLabel(numbers)`. -/
def xrefStep (gen : LabelGenerator)
    (s : OAcc × List (String × String)) (x : Xref) :
    OAcc × List (String × String) :=
  let r := (jsSplit x.rid).foldl (ridsStep gen) (s.1, [])
  (r.1, s.2 ++ [(x.id, gen.getLabelList r.2)])

/-- The whole order/label computation of `_updateCitationLabels`:
returns the final `(pos, order, refLabels)` accumulator and the
`xrefLabels` association list. -/
def computeLabels (gen : LabelGenerator) (xrefs : List Xref) :
    OAcc × List (String × String) :=
  xrefs.foldl (xrefStep gen) (⟨1, [], []⟩, [])

/-- JS `a.state.pos > b.state.pos` on possibly-`undefined` positions:
any comparison involving `undefined` is `false`. -/
def jsGT : Option Nat → Option Nat → Bool
  | some a, some b => decide (b < a)
  | _, _ => false

/-- Stable insertion of one element: `x` goes before the first `y` with
`le x y`. -/
def jsInsert {α : Type} (le : α → α → Bool) (x : α) : List α → List α
  | [] => [x]
  | y :: l => if le x y then x :: y :: l else y :: jsInsert le x l

/-- Stable sort modelling JS `Array.prototype.sort` under the source's
inconsistent boolean comparator (see the header note): elements the
comparator reports as `0`/"not greater" keep their relative order. -/
def jsSort {α : Type} (le : α → α → Bool) : List α → List α
  | [] => []
  | x :: l => jsInsert le x (jsSort le l)

/-- `if (!ref.state.entity) ref.state.entity = entityDb.get(refId)`:
the lazy entity-record enrichment done inside `getBibliography`'s
`map`. -/
def enrichVal (entityDb : String → Option String) (r : RefNode)
    (s : RefState) : RefState :=
  match s.entity with
  | some e => { s with entity := some e }
  | none => { s with entity := entityDb r.rid }

/-- The enrichment pass of `getBibliography` over all `ref` children:
each step is `ref.state.entity = ... (see enrichVal)` on that ref's
state. -/
def enrichFold (entityDb : String → Option String) (refs : List RefNode)
    (st : String → RefState) : String → RefState :=
  refs.foldl
    (fun f r => Function.update f r.id (enrichVal entityDb r (f r.id))) st

/-- `getBibliography()`: enrich each `ref`'s entity cache, then sort the
`ref` children with `(a, b) => a.state.pos > b.state.pos`.  Returns the
sorted list and the document with the updated entity caches. -/
def getBibliography (entityDb : String → Option String) (d : DocState) :
    List RefNode × DocState :=
  let st := enrichFold entityDb d.refs d.refState
  let sorted := jsSort (fun a b => !(jsGT (st a.id).pos (st b.id).pos)) d.refs
  (sorted, { d with refState := st })

/-- The per-ref write-back of `_updateCitationLabels`:
`ref.state.label = refLabels[ref.id] || ''; ref.state.pos = order[ref.id]`.
Note the lookups use the node id `ref.id` (not the `rid` attribute). -/
def refWriteVal (res : OAcc) (r : RefNode) (s : RefState) : RefState :=
  { s with
    label := some ((lookupA res.refLabels r.id).getD "")
    pos := lookupA res.order r.id }

/-- The aggregated change notification emitted after a recompute:
the ids recorded in `change.updated`. -/
structure Change where
  updated : List String
deriving DecidableEq, Repr

/-- The `xrefs.forEach` write-back: `xref.state.label = xrefLabels[xref.id]`
for every in-scope marker. -/
def writeXrefLabels (xrefLabels : List (String × String)) (xrefs : List Xref)
    (f : String → Option String) : String → Option String :=
  xrefs.foldl
    (fun (f : String → Option String) x =>
      Function.update f x.id (lookupA xrefLabels x.id)) f

/-- The `refs.forEach` write-back over `getBibliography()`'s sorted list:
`ref.state.label = refLabels[ref.id] || ''; ref.state.pos = order[ref.id]`. -/
def writeRefStates (res : OAcc) (sorted : List RefNode)
    (st : String → RefState) : String → RefState :=
  sorted.foldl
    (fun st r => Function.update st r.id (refWriteVal res r (st r.id))) st

/-- `_updateCitationLabels()`: the full recompute.  Short-circuits when
there are no in-scope markers; otherwise computes order and labels,
writes every in-scope marker's `state.label`, writes every bibliography
entry's `state.label`/`state.pos` (iterating `getBibliography()`'s
sorted list, as the source does), and emits one change notification
naming every touched marker id, every touched entry id and the
`ref-list` id. -/
def updateCitationLabels (gen : LabelGenerator)
    (entityDb : String → Option String) (d : DocState) :
    DocState × Option Change :=
  let xrefs := inScopeXrefs d
  if xrefs.length = 0 then (d, none)
  else
    let res := computeLabels gen xrefs
    let g := getBibliography entityDb
      { d with xrefLabel := writeXrefLabels res.2 xrefs d.xrefLabel }
    ({ g.2 with refState := writeRefStates res.1 g.1 g.2.refState },
     some ⟨xrefs.map (·.id) ++ g.1.map (·.id) ++ [d.refListId]⟩)

end RefMgr

namespace RefMgr

/-! ### The change classifier of `_onDocumentChange` -/

/-- A document node as the classifier reads it (`doc.get(id)` plus
`node.getAttribute(name)`). -/
structure Node where
  id : String
  type : String
  attrs : List (String × String)
deriving DecidableEq, Repr

/-- `node.getAttribute(name)`; `none` models `undefined`. -/
def Node.getAttributeV (n : Node) (name : String) : Option String :=
  lookupA n.attrs name

/-- `doc.get(id)`. -/
def docGet (nodes : List Node) (id : String) : Option Node :=
  nodes.find? (fun n => n.id == id)

/-- The node payload of a `create`/`delete` operation: `op.val.type`
and `op.val.attributes` (which may be `undefined`). -/
structure OpNodeVal where
  type : String
  attributes : Option (List (String × String))
deriving DecidableEq, Repr

/-- A low-level mutation operation of a document change, as inspected
by `_onDocumentChange`: `op.type` is one of `create`, `delete`, `set`
(with `op.path`, the new value `op.val` and the old value
`op.original`), or something the classifier ignores. -/
inductive MutationOp where
  | create (val : OpNodeVal)
  | delete (val : OpNodeVal)
  | set (path : List String) (val : String) (original : String)
  | other
deriving DecidableEq, Repr

/-- The per-operation test of `_onDocumentChange`'s `switch`. -/
def isRelevantOp (nodes : List Node) (op : MutationOp) : Bool :=
  match op with
  | .create v | .delete v =>
      v.type == "xref" &&
        (match v.attributes with
         | some attrs => lookupA attrs "ref-type" == some "bibr"
         | none => false)
  | .set path val original =>
      if path.get? 1 == some "attributes" then
        if path.get? 2 == some "ref-type" then
          val == "bibr" || original == "bibr"
        else if path.get? 2 == some "rid" then
          match path.get? 0 with
          | some nid =>
              match docGet nodes nid with
              | some node => node.getAttributeV "ref-type" == some "bibr"
              | none => false
          | none => false
        else false
      else false
  | .other => false

/-- The scanning loop of `_onDocumentChange`: first relevant operation
sets `needsUpdate` and breaks. -/
def needsUpdateLoop (nodes : List Node) : List MutationOp → Bool
  | [] => false
  | op :: rest =>
      if isRelevantOp nodes op then true else needsUpdateLoop nodes rest

/-! ### The scheduling behaviour of `_onDocumentChange`

The handler runs on the host's single cooperative thread.  When the
classifier reports a relevant change it calls
`setTimeout(() => this._updateCitationLabels())` — unconditionally,
with no pending flag — so every relevant notification enqueues one
more deferred callback on the host's task queue.  `ctrlStep` models
this queue as a counter of pending callbacks; a `timer` event runs one
queued callback (`_updateCitationLabels` on the then-current
document), and `executedOn` logs the document state each execution
read. -/

/-- Controller state: current document (for the recompute), current
node store (for the classifier), number of queued `setTimeout`
callbacks, and the log of document states seen by recompute
executions. -/
structure CtrlState where
  doc : DocState
  nodes : List Node
  pending : Nat
  executedOn : List DocState

/-- An event delivered to the controller: a document-change
notification (the host has already applied the mutation, so the event
carries the post-mutation document and node store together with the
operation batch), or the host scheduler firing one queued callback. -/
inductive CtrlEvent where
  | notify (newDoc : DocState) (newNodes : List Node) (ops : List MutationOp)
  | timer

/-- One controller step: `_onDocumentChange` classifies and, if
relevant, enqueues one deferred recompute; a `timer` event pops one
queued callback and runs `_updateCitationLabels` on the current
document. -/
def ctrlStep (gen : LabelGenerator) (entityDb : String → Option String)
    (s : CtrlState) : CtrlEvent → CtrlState
  | .notify d ns ops =>
      if needsUpdateLoop ns ops then
        { doc := d, nodes := ns, pending := s.pending + 1,
          executedOn := s.executedOn }
      else
        { doc := d, nodes := ns, pending := s.pending,
          executedOn := s.executedOn }
  | .timer =>
      if s.pending = 0 then s
      else
        { s with
          pending := s.pending - 1
          doc := (updateCitationLabels gen entityDb s.doc).1
          executedOn := s.executedOn ++ [s.doc] }

/-- Run a sequence of controller events. -/
def ctrlRun (gen : LabelGenerator) (entityDb : String → Option String)
    (s : CtrlState) (evs : List CtrlEvent) : CtrlState :=
  evs.foldl (ctrlStep gen entityDb) s

end RefMgr

namespace RefMgr

/-! ### Specification-side definitions

These definitions follow the words of the specification and of the
claims; the theorems below compare them with the embedded source. -/

/-- All identifiers referenced by the given markers, scanning the
markers in document order and each marker's rids in listed order. -/
def allRids (xrefs : List Xref) : List String :=
  (xrefs.map (fun x => jsSplit x.rid)).flatten

/-- The identifiers of `l` that are not in `seen`, listed in order of
first occurrence. -/
def newOf (seen : List String) : List String → List String
  | [] => []
  | x :: l => if x ∈ seen then newOf seen l else x :: newOf (seen ++ [x]) l

/-- The distinct identifiers of `l`, in order of first occurrence. -/
def firstOccs (l : List String) : List String := newOf [] l

/-- Pair the elements of a list with consecutive positions starting at
`p`. -/
def zipFrom : List String → Nat → List (String × Nat)
  | [], _ => []
  | x :: l, p => (x, p) :: zipFrom l (p + 1)

/-- 0-based index of the first occurrence of `id` in a list. -/
def idx0 (id : String) : List String → Nat
  | [] => 0
  | x :: l => if x = id then 0 else idx0 id l + 1

/-- The specification's three relevance rules (claim C6), written from
the claim's words: (1) create/delete of a cross-reference node whose
reference-kind equals the bibliography-citation sentinel; (2) a set of
the reference-kind attribute whose old or new value equals the
sentinel; (3) a set of the `rids` attribute on a node whose current
reference-kind equals the sentinel (a node that no longer exists does
not match). -/
def SpecRelevantOp (nodes : List Node) (op : MutationOp) : Prop :=
  (∃ v, (op = .create v ∨ op = .delete v) ∧ v.type = "xref" ∧
    ∃ attrs, v.attributes = some attrs ∧ lookupA attrs "ref-type" = some "bibr")
  ∨ (∃ nid rest val original,
      op = .set (nid :: "attributes" :: "ref-type" :: rest) val original ∧
      (val = "bibr" ∨ original = "bibr"))
  ∨ (∃ nid rest val original node,
      op = .set (nid :: "attributes" :: "rid" :: rest) val original ∧
      docGet nodes nid = some node ∧
      node.getAttributeV "ref-type" = some "bibr")

/-- The concrete label generator of the specification's examples:
a position maps to its decimal string, a list of positions to the
comma-joined strings. -/
def specGen : LabelGenerator :=
  ⟨fun n => toString n, fun l => String.intercalate "," (l.map toString)⟩

/-- An entity database with no records (entity lookup misses are
tolerated by the source). -/
def dbNone : String → Option String := fun _ => none

/-- Default transient node state: nothing computed, nothing cached. -/
def noState : RefState := ⟨none, none, none⟩

/-- The `OAcc` part of one rid step. -/
def oStep (gen : LabelGenerator) (a : OAcc) (id : String) : OAcc :=
  (ridStep gen a id).1

/-- The `OAcc` part of folding over a list of rids. -/
def oFold (gen : LabelGenerator) (l : List String) (a : OAcc) : OAcc :=
  l.foldl (oStep gen) a

/-- Dispatch on the result of a `find?` over a write-back list: the
state an id ends with after a fold of keyed updates. -/
def applyHit {α : Type} (g : α → RefState → RefState) :
    Option α → RefState → RefState
  | some r, s => g r s
  | none, s => s

/-! ### Concrete documents used by witnesses and counterexamples -/

/-- The spec's P2 example marker `{rids:[B,A]}`. -/
def xm1 : Xref := ⟨"x1", "bibr", "B A"⟩

/-- The spec's P2 example marker `{rids:[A,C]}`. -/
def xm2 : Xref := ⟨"x2", "bibr", "A C"⟩

/-- A document with no in-scope marker (its only xref has
`ref-type='fig'`). -/
def docNoScope : DocState :=
  ⟨[⟨"x1", "fig", "a"⟩], [⟨"r1", "e1"⟩], "rl", fun _ => none, fun _ => noState⟩

/-- A document whose bibliography entry has node id `r1` and rid
attribute `e1`, cited by a marker whose rid token is `e1` (the entry's
rid attribute). -/
def docRidMismatch : DocState :=
  ⟨[⟨"x1", "bibr", "e1"⟩], [⟨"r1", "e1"⟩], "rl", fun _ => none, fun _ => noState⟩

/-- A document whose ref-list holds an uncited entry `d` first and a
cited entry `a` second. -/
def docUncitedFirst : DocState :=
  ⟨[⟨"x1", "bibr", "a"⟩], [⟨"d", "ed"⟩, ⟨"a", "ea"⟩], "rl",
   fun _ => none, fun _ => noState⟩

/-- A relevance-triggering operation batch (a `ref-type` attribute set
to the sentinel). -/
def relevantOps : List MutationOp :=
  [.set ["n1", "attributes", "ref-type"] "bibr" ""]

/-- An idle controller state: no pending deferred recompute, empty
execution log. -/
def ctrl0 : CtrlState := ⟨docNoScope, [], 0, []⟩


end RefMgr

namespace RefMgr

/-! ### Basic lemmas about the map and spec-side helpers -/

theorem lookupA_append {β : Type} (u v : List (String × β)) (k : String) :
    lookupA (u ++ v) k = (lookupA u k).or (lookupA v k) := by
  unfold lookupA
  rw [List.find?_append]
  cases u.find? (fun p => p.1 == k) <;> simp [Option.or]

theorem lookupA_eq_none {β : Type} {l : List (String × β)} {k : String} :
    lookupA l k = none ↔ k ∉ l.map Prod.fst := by
  simp only [lookupA, Option.map_eq_none', List.find?_eq_none, beq_iff_eq,
    List.mem_map]
  constructor
  · rintro h ⟨p, hp, rfl⟩
    exact h p hp rfl
  · rintro h p hp rfl
    exact h ⟨p, hp, rfl⟩

theorem lookupA_isSome {β : Type} {l : List (String × β)} {k : String} :
    (∃ b, lookupA l k = some b) ↔ k ∈ l.map Prod.fst := by
  constructor
  · rintro ⟨b, hb⟩
    by_contra hk
    rw [← lookupA_eq_none] at hk
    rw [hk] at hb
    cases hb
  · intro hk
    rcases h : lookupA l k with _ | b
    · rw [lookupA_eq_none] at h
      exact absurd hk h
    · exact ⟨b, rfl⟩

theorem lookupA_map_snd {β γ : Type} (h : β → γ) (l : List (String × β))
    (k : String) :
    lookupA (l.map (fun q => (q.1, h q.2))) k = (lookupA l k).map h := by
  induction l with
  | nil => rfl
  | cons q l ih =>
      by_cases hq : q.1 = k
      · simp [lookupA, List.find?_cons_of_pos, hq]
      · unfold lookupA at ih ⊢
        rw [List.map_cons, List.find?_cons_of_neg, List.find?_cons_of_neg]
        · exact ih
        · simpa using hq
        · simpa using hq

theorem zipFrom_map_fst (l : List String) (p : Nat) :
    (zipFrom l p).map Prod.fst = l := by
  induction l generalizing p with
  | nil => rfl
  | cons x l ih => simp [zipFrom, ih]

theorem zipFrom_map_snd (l : List String) (p : Nat) :
    (zipFrom l p).map Prod.snd = List.range' p l.length := by
  induction l generalizing p with
  | nil => rfl
  | cons x l ih => simp [zipFrom, ih, List.range']

theorem lookupA_zipFrom_mem {l : List String} {id : String} (p : Nat)
    (h : id ∈ l) :
    lookupA (zipFrom l p) id = some (p + idx0 id l) := by
  induction l generalizing p with
  | nil => cases h
  | cons x l ih =>
      by_cases hx : x = id
      · subst hx
        simp [zipFrom, lookupA, List.find?_cons_of_pos, idx0]
      · have hmem : id ∈ l := by
          rcases List.mem_cons.mp h with h' | h'
          · exact absurd h'.symm hx
          · exact h'
        unfold zipFrom lookupA
        rw [List.find?_cons_of_neg _ (by simpa using hx)]
        have := ih (p + 1) hmem
        unfold lookupA at this
        rw [this]
        simp only [idx0, if_neg hx, Option.some.injEq]
        omega

theorem lookupA_zipFrom_not_mem {l : List String} {id : String} (p : Nat)
    (h : id ∉ l) :
    lookupA (zipFrom l p) id = none := by
  rw [lookupA_eq_none, zipFrom_map_fst]
  exact h

theorem newOf_mem {y : String} : ∀ {seen l : List String},
    y ∈ newOf seen l ↔ (y ∉ seen ∧ y ∈ l) := by
  intro seen l
  induction l generalizing seen with
  | nil => simp [newOf]
  | cons x l ih =>
      unfold newOf
      by_cases hx : x ∈ seen
      · rw [if_pos hx, ih]
        constructor
        · rintro ⟨h1, h2⟩
          exact ⟨h1, List.mem_cons_of_mem _ h2⟩
        · rintro ⟨h1, h2⟩
          rcases List.mem_cons.mp h2 with rfl | h2
          · exact absurd hx h1
          · exact ⟨h1, h2⟩
      · rw [if_neg hx]
        by_cases hyx : y = x
        · subst hyx
          simp [hx]
        · simp only [List.mem_cons, ih, List.mem_append,
            List.mem_singleton]
          tauto

theorem newOf_nodup : ∀ (seen l : List String), (newOf seen l).Nodup := by
  intro seen l
  induction l generalizing seen with
  | nil => exact List.nodup_nil
  | cons x l ih =>
      unfold newOf
      by_cases hx : x ∈ seen
      · rw [if_pos hx]; exact ih seen
      · rw [if_neg hx]
        refine List.nodup_cons.mpr ⟨?_, ih (seen ++ [x])⟩
        intro hmem
        exact (newOf_mem.mp hmem).1 (by simp)

theorem firstOccs_mem {l : List String} {y : String} :
    y ∈ firstOccs l ↔ y ∈ l := by
  unfold firstOccs
  rw [newOf_mem]
  simp

theorem firstOccs_nodup (l : List String) : (firstOccs l).Nodup :=
  newOf_nodup [] l

end RefMgr

namespace RefMgr

/-! ### Closed form of the order/label computation -/

theorem ridsFold_fst (gen : LabelGenerator) :
    ∀ (l : List String) (a : OAcc) (ns : List Nat),
      (l.foldl (ridsStep gen) (a, ns)).1 = oFold gen l a := by
  intro l
  induction l with
  | nil => intro a ns; rfl
  | cons x l ih =>
      intro a ns
      show (l.foldl (ridsStep gen) (ridsStep gen (a, ns) x)).1 = _
      rw [show ridsStep gen (a, ns) x
            = (oStep gen a x, ns ++ [(ridStep gen a x).2]) from rfl]
      rw [ih]
      rfl

theorem oFold_closed (gen : LabelGenerator) :
    ∀ (l : List String) (a : OAcc), a.pos = a.order.length + 1 →
      (oFold gen l a).order
          = a.order ++ zipFrom (newOf (a.order.map Prod.fst) l) a.pos
      ∧ (oFold gen l a).refLabels
          = a.refLabels ++ (zipFrom (newOf (a.order.map Prod.fst) l)
              a.pos).map (fun q => (q.1, gen.getLabelOne q.2))
      ∧ (oFold gen l a).pos
          = a.pos + (newOf (a.order.map Prod.fst) l).length := by
  intro l
  induction l with
  | nil => intro a _; simp [oFold, newOf, zipFrom]
  | cons x l ih =>
      intro a hpos
      have hfold : oFold gen (x :: l) a = oFold gen l (oStep gen a x) := rfl
      rcases h : lookupA a.order x with _ | p
      · -- x not yet assigned: a new position is appended
        have hxmem : x ∉ a.order.map Prod.fst := lookupA_eq_none.mp h
        have hstep : oStep gen a x
            = ⟨a.pos + 1, a.order ++ [(x, a.pos)],
               a.refLabels ++ [(x, gen.getLabelOne a.pos)]⟩ := by
          unfold oStep ridStep
          rw [h]
        have hpos' : (oStep gen a x).pos = (oStep gen a x).order.length + 1 := by
          rw [hstep]
          simp [hpos]
        obtain ⟨ho, hr, hp⟩ := ih (oStep gen a x) hpos'
        have hkeys : (oStep gen a x).order.map Prod.fst
            = a.order.map Prod.fst ++ [x] := by
          rw [hstep]; simp
        have hnew : newOf (a.order.map Prod.fst) (x :: l)
            = x :: newOf (a.order.map Prod.fst ++ [x]) l := by
          simp only [newOf]
          rw [if_neg hxmem]
        refine ⟨?_, ?_, ?_⟩
        · rw [hfold, ho, hkeys, hnew, hstep]
          simp [zipFrom, hpos]
        · rw [hfold, hr, hkeys, hnew, hstep]
          simp [zipFrom, hpos]
        · rw [hfold, hp, hkeys, hnew, hstep]
          simp
          omega
      · -- x already assigned: nothing changes
        have hxmem : x ∈ a.order.map Prod.fst :=
          lookupA_isSome.mp ⟨p, h⟩
        have hstep : oStep gen a x = a := by
          unfold oStep ridStep
          rw [h]
        have hnew : newOf (a.order.map Prod.fst) (x :: l)
            = newOf (a.order.map Prod.fst) l := by
          simp only [newOf]
          rw [if_pos hxmem]
        obtain ⟨ho, hr, hp⟩ := ih a hpos
        rw [hfold, hstep, hnew]
        exact ⟨ho, hr, hp⟩

theorem oStep_mono (gen : LabelGenerator) {a : OAcc} {id : String} {p : Nat}
    (x : String) (h : lookupA a.order id = some p) :
    lookupA (oStep gen a x).order id = some p := by
  unfold oStep ridStep
  rcases hx : lookupA a.order x with _ | q
  · show lookupA (a.order ++ [(x, a.pos)]) id = some p
    rw [lookupA_append, h]
    rfl
  · exact h

theorem oFold_mono (gen : LabelGenerator) :
    ∀ (l : List String) {a : OAcc} {id : String} {p : Nat},
      lookupA a.order id = some p →
      lookupA (oFold gen l a).order id = some p := by
  intro l
  induction l with
  | nil => intro a id p h; exact h
  | cons x l ih =>
      intro a id p h
      exact ih (oStep_mono gen x h)

theorem oFold_lookup_mem (gen : LabelGenerator) :
    ∀ (l : List String) (a : OAcc) {id : String}, id ∈ l →
      ∃ p, lookupA (oFold gen l a).order id = some p := by
  intro l
  induction l with
  | nil => intro a id h; cases h
  | cons x l ih =>
      intro a id h
      by_cases hx : id = x
      · subst hx
        have : ∃ p, lookupA (oStep gen a id).order id = some p := by
          unfold oStep ridStep
          rcases hl : lookupA a.order id with _ | q
          · refine ⟨a.pos, ?_⟩
            show lookupA (a.order ++ [(id, a.pos)]) id = some a.pos
            rw [lookupA_append, hl]
            simp [lookupA, Option.or]
          · refine ⟨q, ?_⟩
            show lookupA a.order id = some q
            exact hl
        obtain ⟨p, hp⟩ := this
        exact ⟨p, oFold_mono gen l hp⟩
      · have hmem : id ∈ l := by
          rcases List.mem_cons.mp h with h' | h'
          · exact absurd h' hx
          · exact h'
        exact ih (oStep gen a x) hmem

end RefMgr

namespace RefMgr

theorem allRids_cons (x : Xref) (xs : List Xref) :
    allRids (x :: xs) = jsSplit x.rid ++ allRids xs := by
  simp [allRids]

theorem xrefStep_eq (gen : LabelGenerator) (s : OAcc × List (String × String))
    (x : Xref) :
    xrefStep gen s x
      = (oFold gen (jsSplit x.rid) s.1,
         s.2 ++ [(x.id,
           gen.getLabelList ((jsSplit x.rid).foldl (ridsStep gen)
             (s.1, [])).2)]) := by
  unfold xrefStep
  simp only [ridsFold_fst]

theorem xrefsFold_fst (gen : LabelGenerator) :
    ∀ (xs : List Xref) (a : OAcc) (xl : List (String × String)),
      (xs.foldl (xrefStep gen) (a, xl)).1 = oFold gen (allRids xs) a := by
  intro xs
  induction xs with
  | nil => intro a xl; simp [allRids, oFold]
  | cons x xs ih =>
      intro a xl
      show (xs.foldl (xrefStep gen) (xrefStep gen (a, xl) x)).1 = _
      rw [xrefStep_eq, ih, allRids_cons]
      unfold oFold
      rw [List.foldl_append]

theorem computeLabels_order (gen : LabelGenerator) (xs : List Xref) :
    (computeLabels gen xs).1.order = zipFrom (firstOccs (allRids xs)) 1 := by
  have h := (oFold_closed gen (allRids xs) ⟨1, [], []⟩ (by simp)).1
  unfold computeLabels
  rw [xrefsFold_fst, h]
  simp [firstOccs]

theorem computeLabels_refLabels (gen : LabelGenerator) (xs : List Xref) :
    (computeLabels gen xs).1.refLabels
      = (zipFrom (firstOccs (allRids xs)) 1).map
          (fun q => (q.1, gen.getLabelOne q.2)) := by
  have h := (oFold_closed gen (allRids xs) ⟨1, [], []⟩ (by simp)).2.1
  unfold computeLabels
  rw [xrefsFold_fst, h]
  simp [firstOccs]

theorem ridsFold_snd (gen : LabelGenerator) :
    ∀ (l : List String) (a : OAcc) (ns : List Nat),
      (l.foldl (ridsStep gen) (a, ns)).2
        = ns ++ l.map (fun id =>
            (lookupA (oFold gen l a).order id).getD 0) := by
  intro l
  induction l with
  | nil => intro a ns; simp
  | cons x l ih =>
      intro a ns
      have hstep : ridsStep gen (a, ns) x
          = (oStep gen a x, ns ++ [(ridStep gen a x).2]) := rfl
      have hx : lookupA (oStep gen a x).order x = some (ridStep gen a x).2 := by
        unfold oStep ridStep
        rcases hl : lookupA a.order x with _ | q
        · show lookupA (a.order ++ [(x, a.pos)]) x = some a.pos
          rw [lookupA_append, hl]
          simp [lookupA, Option.or]
        · show lookupA a.order x = some q
          exact hl
      show (l.foldl (ridsStep gen) (ridsStep gen (a, ns) x)).2 = _
      rw [hstep, ih]
      have hfinal : lookupA (oFold gen l (oStep gen a x)).order x
          = some (ridStep gen a x).2 := oFold_mono gen l hx
      have hofold : oFold gen (x :: l) a = oFold gen l (oStep gen a x) := rfl
      rw [List.map_cons, hofold, hfinal]
      simp

theorem xrefsFold_snd (gen : LabelGenerator) :
    ∀ (xs : List Xref) (a : OAcc) (xl : List (String × String)),
      (xs.foldl (xrefStep gen) (a, xl)).2
        = xl ++ xs.map (fun x => (x.id,
            gen.getLabelList ((jsSplit x.rid).map (fun r =>
              (lookupA (oFold gen (allRids xs) a).order r).getD 0)))) := by
  intro xs
  induction xs with
  | nil => intro a xl; simp
  | cons x xs ih =>
      intro a xl
      show (xs.foldl (xrefStep gen) (xrefStep gen (a, xl) x)).2 = _
      rw [xrefStep_eq, ih]
      have hnums : ((jsSplit x.rid).foldl (ridsStep gen) (a, [])).2
          = (jsSplit x.rid).map (fun r =>
              (lookupA (oFold gen (jsSplit x.rid) a).order r).getD 0) := by
        rw [ridsFold_snd]
        simp
      rw [hnums]
      have hmapstable : ∀ ys : List Xref, ∀ b : OAcc,
          (∀ r p, lookupA b.order r = some p →
            lookupA (oFold gen (allRids ys) b).order r = some p) :=
        fun ys b r p h => oFold_mono gen (allRids ys) h
      have hsplit : (jsSplit x.rid).map (fun r =>
            (lookupA (oFold gen (jsSplit x.rid) a).order r).getD 0)
          = (jsSplit x.rid).map (fun r =>
            (lookupA (oFold gen (allRids (x :: xs)) a).order r).getD 0) := by
        apply List.map_congr_left
        intro r hr
        obtain ⟨p, hp⟩ := oFold_lookup_mem gen (jsSplit x.rid) a hr
        have hp2 : lookupA (oFold gen (allRids (x :: xs)) a).order r
            = some p := by
          rw [allRids_cons]
          unfold oFold
          rw [List.foldl_append]
          exact oFold_mono gen (allRids xs) hp
        rw [hp, hp2]
      have hrest : xs.map (fun y => (y.id,
            gen.getLabelList ((jsSplit y.rid).map (fun r =>
              (lookupA (oFold gen (allRids xs) (oFold gen (jsSplit x.rid) a)).order
                r).getD 0))))
          = xs.map (fun y => (y.id,
            gen.getLabelList ((jsSplit y.rid).map (fun r =>
              (lookupA (oFold gen (allRids (x :: xs)) a).order r).getD 0)))) := by
        have : oFold gen (allRids (x :: xs)) a
            = oFold gen (allRids xs) (oFold gen (jsSplit x.rid) a) := by
          rw [allRids_cons]
          unfold oFold
          rw [List.foldl_append]
        rw [this]
      rw [hrest, hsplit]
      simp

theorem computeLabels_snd (gen : LabelGenerator) (xs : List Xref) :
    (computeLabels gen xs).2
      = xs.map (fun x => (x.id,
          gen.getLabelList ((jsSplit x.rid).map (fun r =>
            (lookupA (computeLabels gen xs).1.order r).getD 0)))) := by
  unfold computeLabels
  rw [xrefsFold_snd, xrefsFold_fst]
  simp

end RefMgr

namespace RefMgr

/-! ### Lemmas about the sort and the write-back folds -/

theorem jsInsert_perm {α : Type} (le : α → α → Bool) (x : α) :
    ∀ l : List α, (jsInsert le x l).Perm (x :: l) := by
  intro l
  induction l with
  | nil => exact List.Perm.refl _
  | cons y l ih =>
      unfold jsInsert
      by_cases h : le x y
      · rw [if_pos h]
      · rw [if_neg h]
        exact (ih.cons y).trans (List.Perm.swap x y l)

theorem jsSort_perm {α : Type} (le : α → α → Bool) :
    ∀ l : List α, (jsSort le l).Perm l := by
  intro l
  induction l with
  | nil => exact List.Perm.refl _
  | cons x l ih =>
      unfold jsSort
      exact (jsInsert_perm le x (jsSort le l)).trans (ih.cons x)

theorem foldl_update_by_key {α β : Type} (key : α → String) (v : String → β) :
    ∀ (L : List α) (st : String → β) (id : String),
      (L.foldl (fun f r => Function.update f (key r) (v (key r))) st) id
        = if id ∈ L.map key then v id else st id := by
  intro L
  induction L with
  | nil => intro st id; simp
  | cons r L ih =>
      intro st id
      show (L.foldl _ (Function.update st (key r) (v (key r)))) id = _
      rw [ih]
      by_cases hmem : id ∈ L.map key
      · rw [if_pos hmem, if_pos (by simp [hmem])]
      · rw [if_neg hmem]
        by_cases hr : id = key r
        · subst hr
          rw [if_pos (by simp)]
          simp [Function.update]
        · have hnotin : id ∉ List.map key (r :: L) := by
            rw [List.map_cons, List.mem_cons]
            rintro (h | h)
            · exact hr h
            · exact hmem h
          rw [if_neg hnotin, Function.update_noteq hr]

theorem foldl_update_dep {α : Type} (key : α → String)
    (g : α → RefState → RefState) :
    ∀ (L : List α) (st : String → RefState) (id : String),
      (L.map key).Nodup →
      (L.foldl (fun f r => Function.update f (key r) (g r (f (key r)))) st) id
        = applyHit g (L.find? (fun r => key r == id)) (st id) := by
  intro L
  induction L with
  | nil => intro st id _; rfl
  | cons r L ih =>
      intro st id hn
      rw [List.map_cons, List.nodup_cons] at hn
      obtain ⟨hn1, hn2⟩ := hn
      show (L.foldl _ (Function.update st (key r) (g r (st (key r))))) id = _
      rw [ih _ _ hn2]
      by_cases h : key r = id
      · rw [List.find?_cons_of_pos _ (by simpa using h)]
        have hnone : L.find? (fun x => key x == id) = none := by
          rw [List.find?_eq_none]
          intro x hx
          simp only [beq_iff_eq]
          intro hk
          exact hn1 (hk.trans h.symm ▸ List.mem_map_of_mem key hx)
        rw [hnone]
        subst h
        simp [applyHit, Function.update]
      · rw [List.find?_cons_of_neg _ (by simpa using h)]
        rw [Function.update_noteq (fun hh => h hh.symm)]

theorem find?_key_of_mem_nodup {α : Type} (key : α → String) :
    ∀ (L : List α), (L.map key).Nodup → ∀ r ∈ L,
      L.find? (fun x => key x == key r) = some r := by
  intro L
  induction L with
  | nil => intro _ r hr; cases hr
  | cons a L ih =>
      intro hn r hr
      rw [List.map_cons, List.nodup_cons] at hn
      obtain ⟨hn1, hn2⟩ := hn
      rcases List.mem_cons.mp hr with rfl | hr'
      · rw [List.find?_cons_of_pos _ (by simp)]
      · have hne : ¬(key a == key r) = true := by
          simp only [beq_iff_eq]
          intro hk
          exact hn1 (hk ▸ List.mem_map_of_mem key hr')
        have hcons : List.find? (fun x => key x == key r) (a :: L)
            = List.find? (fun x => key x == key r) L :=
          @List.find?_cons_of_neg _ (fun x => key x == key r) a L hne
        rw [hcons]
        exact ih hn2 r hr'

theorem find?_key_eq_none {α : Type} (key : α → String) (L : List α)
    (id : String) (h : id ∉ L.map key) :
    L.find? (fun x => key x == id) = none := by
  rw [List.find?_eq_none]
  intro x hx
  simp only [beq_iff_eq]
  intro hk
  exact h (hk ▸ List.mem_map_of_mem key hx)

end RefMgr

namespace RefMgr

/-! ### Characterization of one recompute -/

theorem foldl_update_dep_not_mem {α : Type} (key : α → String)
    (g : α → RefState → RefState) :
    ∀ (L : List α) (st : String → RefState) (id : String),
      id ∉ L.map key →
      (L.foldl (fun f r => Function.update f (key r) (g r (f (key r)))) st) id
        = st id := by
  intro L
  induction L with
  | nil => intro st id _; rfl
  | cons r L ih =>
      intro st id hid
      rw [List.map_cons, List.mem_cons] at hid
      push_neg at hid
      show (L.foldl _ (Function.update st (key r) (g r (st (key r))))) id = _
      rw [ih _ _ hid.2, Function.update_noteq hid.1]

theorem uCL_empty (gen : LabelGenerator) (db : String → Option String)
    (d : DocState) (h : (inScopeXrefs d).length = 0) :
    updateCitationLabels gen db d = (d, none) := by
  unfold updateCitationLabels
  rw [if_pos h]

theorem uCL_refState_eq (gen : LabelGenerator) (db : String → Option String)
    (d : DocState) (h : ¬(inScopeXrefs d).length = 0) :
    (updateCitationLabels gen db d).1.refState
      = writeRefStates (computeLabels gen (inScopeXrefs d)).1
          (jsSort (fun a b =>
            !(jsGT ((enrichFold db d.refs d.refState) a.id).pos
                   ((enrichFold db d.refs d.refState) b.id).pos)) d.refs)
          (enrichFold db d.refs d.refState) := by
  unfold updateCitationLabels getBibliography
  rw [if_neg h]

theorem uCL_xrefLabel_eq (gen : LabelGenerator) (db : String → Option String)
    (d : DocState) (h : ¬(inScopeXrefs d).length = 0) :
    (updateCitationLabels gen db d).1.xrefLabel
      = writeXrefLabels (computeLabels gen (inScopeXrefs d)).2
          (inScopeXrefs d) d.xrefLabel := by
  unfold updateCitationLabels getBibliography
  rw [if_neg h]

theorem uCL_xrefs (gen : LabelGenerator) (db : String → Option String)
    (d : DocState) : (updateCitationLabels gen db d).1.xrefs = d.xrefs := by
  unfold updateCitationLabels getBibliography
  by_cases h : (inScopeXrefs d).length = 0
  · rw [if_pos h]
  · rw [if_neg h]

theorem uCL_refs (gen : LabelGenerator) (db : String → Option String)
    (d : DocState) : (updateCitationLabels gen db d).1.refs = d.refs := by
  unfold updateCitationLabels getBibliography
  by_cases h : (inScopeXrefs d).length = 0
  · rw [if_pos h]
  · rw [if_neg h]

theorem uCL_refListId (gen : LabelGenerator) (db : String → Option String)
    (d : DocState) :
    (updateCitationLabels gen db d).1.refListId = d.refListId := by
  unfold updateCitationLabels getBibliography
  by_cases h : (inScopeXrefs d).length = 0
  · rw [if_pos h]
  · rw [if_neg h]

theorem uCL_inScope (gen : LabelGenerator) (db : String → Option String)
    (d : DocState) :
    inScopeXrefs (updateCitationLabels gen db d).1 = inScopeXrefs d := by
  unfold inScopeXrefs
  rw [uCL_xrefs]

theorem writeXrefLabels_apply (xl : List (String × String)) (xrefs : List Xref)
    (f : String → Option String) (id : String) :
    writeXrefLabels xl xrefs f id
      = if id ∈ xrefs.map Xref.id then lookupA xl id else f id := by
  unfold writeXrefLabels
  exact foldl_update_by_key Xref.id (fun i => lookupA xl i) xrefs f id

theorem writeRefStates_apply (res : OAcc) (sorted : List RefNode)
    (st : String → RefState) (id : String)
    (hn : (sorted.map RefNode.id).Nodup) :
    writeRefStates res sorted st id
      = applyHit (refWriteVal res) (sorted.find? (fun r => r.id == id))
          (st id) := by
  unfold writeRefStates
  exact foldl_update_dep RefNode.id (refWriteVal res) sorted st id hn

theorem enrichFold_apply (db : String → Option String) (refs : List RefNode)
    (st : String → RefState) (id : String)
    (hn : (refs.map RefNode.id).Nodup) :
    enrichFold db refs st id
      = applyHit (enrichVal db) (refs.find? (fun r => r.id == id))
          (st id) := by
  unfold enrichFold
  exact foldl_update_dep RefNode.id (enrichVal db) refs st id hn

theorem uCL_refState_mem (gen : LabelGenerator) (db : String → Option String)
    (d : DocState) (h : ¬(inScopeXrefs d).length = 0)
    (hn : (d.refs.map RefNode.id).Nodup) {r : RefNode} (hr : r ∈ d.refs) :
    (updateCitationLabels gen db d).1.refState r.id
      = refWriteVal (computeLabels gen (inScopeXrefs d)).1 r
          (enrichVal db r (d.refState r.id)) := by
  rw [uCL_refState_eq gen db d h]
  have hperm := jsSort_perm (fun a b =>
      !(jsGT ((enrichFold db d.refs d.refState) a.id).pos
             ((enrichFold db d.refs d.refState) b.id).pos)) d.refs
  have hnsort : ((jsSort (fun a b =>
      !(jsGT ((enrichFold db d.refs d.refState) a.id).pos
             ((enrichFold db d.refs d.refState) b.id).pos)) d.refs).map
        RefNode.id).Nodup := ((hperm.map RefNode.id).nodup_iff).mpr hn
  rw [writeRefStates_apply _ _ _ _ hnsort]
  have hmem : r ∈ jsSort (fun a b =>
      !(jsGT ((enrichFold db d.refs d.refState) a.id).pos
             ((enrichFold db d.refs d.refState) b.id).pos)) d.refs :=
    (hperm.mem_iff).mpr hr
  rw [find?_key_of_mem_nodup RefNode.id _ hnsort r hmem]
  show refWriteVal _ r (enrichFold db d.refs d.refState r.id) = _
  rw [enrichFold_apply db d.refs d.refState r.id hn,
    find?_key_of_mem_nodup RefNode.id d.refs hn r hr]
  rfl

theorem uCL_refState_not_mem (gen : LabelGenerator)
    (db : String → Option String) (d : DocState)
    (h : ¬(inScopeXrefs d).length = 0) {id : String}
    (hid : id ∉ d.refs.map RefNode.id) :
    (updateCitationLabels gen db d).1.refState id = d.refState id := by
  rw [uCL_refState_eq gen db d h]
  have hperm := jsSort_perm (fun a b =>
      !(jsGT ((enrichFold db d.refs d.refState) a.id).pos
             ((enrichFold db d.refs d.refState) b.id).pos)) d.refs
  have hid2 : id ∉ ((jsSort (fun a b =>
      !(jsGT ((enrichFold db d.refs d.refState) a.id).pos
             ((enrichFold db d.refs d.refState) b.id).pos)) d.refs).map
        RefNode.id) :=
    fun hm => hid ((hperm.map RefNode.id).mem_iff.mp hm)
  unfold writeRefStates
  rw [foldl_update_dep_not_mem RefNode.id (refWriteVal _) _ _ _ hid2]
  unfold enrichFold
  exact foldl_update_dep_not_mem RefNode.id (enrichVal db) _ _ _ hid

end RefMgr

namespace RefMgr

end RefMgr

namespace RefMgr

/-! ### The claims -/

/-- Claim C4: the computed order map assigns each referenced identifier
the 1-based rank of its first occurrence, scanning markers in document
order and each marker's rids in listed order (`firstOccs` lists the
distinct identifiers in exactly that scan order). -/
theorem claim4_order_first_occurrence (gen : LabelGenerator)
    (xs : List Xref) {id : String} (h : id ∈ allRids xs) :
    lookupA (computeLabels gen xs).1.order id
      = some (idx0 id (firstOccs (allRids xs)) + 1) := by
  rw [computeLabels_order]
  rw [lookupA_zipFrom_mem 1 (firstOccs_mem.mpr h)]
  rw [Nat.add_comm]

/-- Witness for C4 at the spec's P2 example
`[{rids:[B,A]}, {rids:[A,C]}]`: identifier `A` gets position 2. -/
theorem claim4_witness :
    ("A" ∈ allRids [xm1, xm2])
    ∧ lookupA (computeLabels specGen [xm1, xm2]).1.order "A" = some 2 :=
  ⟨by decide,
   (claim4_order_first_occurrence specGen [xm1, xm2] (by decide)).trans
     (by decide)⟩

/-- Claim C5: every in-scope marker's computed label is the
LabelGenerator applied to the positions of the marker's rids in the
marker's own listed order (`map` preserves duplicates — no
deduplication). -/
theorem claim5_marker_labels (gen : LabelGenerator) (xs : List Xref) :
    (computeLabels gen xs).2
      = xs.map (fun x => (x.id,
          gen.getLabelList ((jsSplit x.rid).map (fun r =>
            (lookupA (computeLabels gen xs).1.order r).getD 0)))) :=
  computeLabels_snd gen xs

/-- Claim C9: with zero in-scope markers the recompute short-circuits:
the document state is returned unchanged (no marker or entry state
write) and no change notification is emitted. -/
theorem claim9_empty_scope_short_circuit (gen : LabelGenerator)
    (db : String → Option String) (d : DocState)
    (h : inScopeXrefs d = []) :
    updateCitationLabels gen db d = (d, none) := by
  apply uCL_empty
  rw [h]
  rfl

/-- Witness for C9: a concrete document whose only xref is not a
bibliography citation. -/
theorem claim9_witness :
    inScopeXrefs docNoScope = []
    ∧ updateCitationLabels specGen dbNone docNoScope = (docNoScope, none) :=
  ⟨by decide,
   claim9_empty_scope_short_circuit specGen dbNone docNoScope (by decide)⟩

/-- Claim C10: after a recompute over a document with at least one
in-scope marker, the order map's keys are exactly the identifiers
occurring in the in-scope markers' rids, without duplicates, and the
assigned positions are exactly the consecutive range `1 .. N` where `N`
is the number of distinct such identifiers. -/
theorem claim10_positions_consecutive (gen : LabelGenerator) (d : DocState)
    (h : inScopeXrefs d ≠ []) :
    ((computeLabels gen (inScopeXrefs d)).1.order.map Prod.fst).Nodup
    ∧ (∀ id, id ∈ (computeLabels gen (inScopeXrefs d)).1.order.map Prod.fst
        ↔ id ∈ allRids (inScopeXrefs d))
    ∧ (computeLabels gen (inScopeXrefs d)).1.order.map Prod.snd
        = List.range' 1
            ((computeLabels gen (inScopeXrefs d)).1.order.map
              Prod.fst).length := by
  refine ⟨?_, ?_, ?_⟩
  · rw [computeLabels_order, zipFrom_map_fst]
    exact firstOccs_nodup _
  · intro id
    rw [computeLabels_order, zipFrom_map_fst]
    exact firstOccs_mem
  · rw [computeLabels_order, zipFrom_map_snd, zipFrom_map_fst]

/-- Witness for C10: the two-marker example document. -/
theorem claim10_witness :
    inScopeXrefs docRidMismatch ≠ []
    ∧ (((computeLabels specGen (inScopeXrefs docRidMismatch)).1.order.map
          Prod.fst).Nodup
      ∧ (∀ id, id ∈ (computeLabels specGen
            (inScopeXrefs docRidMismatch)).1.order.map Prod.fst
          ↔ id ∈ allRids (inScopeXrefs docRidMismatch))
      ∧ (computeLabels specGen (inScopeXrefs docRidMismatch)).1.order.map
            Prod.snd
          = List.range' 1
              ((computeLabels specGen
                (inScopeXrefs docRidMismatch)).1.order.map
                Prod.fst).length) :=
  ⟨by decide,
   claim10_positions_consecutive specGen docRidMismatch (by decide)⟩

end RefMgr

namespace RefMgr

theorem isRelevantOp_iff (nodes : List Node) (op : MutationOp) :
    isRelevantOp nodes op = true ↔ SpecRelevantOp nodes op := by
  cases op with
  | create v =>
      cases hv : v.attributes with
      | none => simp [isRelevantOp, SpecRelevantOp, hv]
      | some attrs => simp [isRelevantOp, SpecRelevantOp, hv]
  | delete v =>
      cases hv : v.attributes with
      | none => simp [isRelevantOp, SpecRelevantOp, hv]
      | some attrs => simp [isRelevantOp, SpecRelevantOp, hv]
  | other => simp [isRelevantOp, SpecRelevantOp]
  | set path val original =>
      cases path with
      | nil => simp [isRelevantOp, SpecRelevantOp]
      | cons x p =>
          cases p with
          | nil => simp [isRelevantOp, SpecRelevantOp]
          | cons y q =>
              by_cases hy : y = "attributes"
              · subst hy
                cases q with
                | nil => simp [isRelevantOp, SpecRelevantOp]
                | cons z w =>
                    by_cases hz1 : z = "ref-type"
                    · subst hz1
                      have hlhs : isRelevantOp nodes
                          (.set (x :: "attributes" :: "ref-type" :: w)
                            val original)
                          = (val == "bibr" || original == "bibr") := by
                        simp [isRelevantOp]
                      rw [hlhs]
                      constructor
                      · intro h
                        refine Or.inr (Or.inl ⟨x, w, val, original, rfl, ?_⟩)
                        rcases Bool.or_eq_true_iff.mp h with h' | h'
                        · exact Or.inl (by simpa using h')
                        · exact Or.inr (by simpa using h')
                      · rintro (⟨v, hor, _⟩ |
                          ⟨nid, rest, v1, o1, heq, hbibr⟩ |
                          ⟨nid, rest, v1, o1, node, heq, _, _⟩)
                        · rcases hor with h' | h' <;> simp at h'
                        · obtain ⟨-, hv, ho⟩ := MutationOp.set.inj heq
                          subst hv
                          subst ho
                          rcases hbibr with h' | h' <;> simp [h']
                        · simp at heq
                    · by_cases hz2 : z = "rid"
                      · subst hz2
                        rcases hdoc : docGet nodes x with _ | node
                        · simp [isRelevantOp, SpecRelevantOp, hdoc]
                        · simp [isRelevantOp, SpecRelevantOp, hdoc]
                      · simp [isRelevantOp, SpecRelevantOp, hz1, hz2]
              · simp [isRelevantOp, SpecRelevantOp, hy]

end RefMgr

namespace RefMgr

/-- Claim C6: the change classifier reports relevance exactly when some
operation in the batch matches one of the specification's three rules
(`SpecRelevantOp`, written from the claim's words).  In particular a
set of an unrelated attribute never matches, a `rids` change on a node
whose current reference-kind is not the sentinel never matches, and an
operation whose target node no longer exists does not match while the
scan continues over the remaining operations (the loop is total and
the equivalence holds for every batch). -/
theorem claim6_classifier (nodes : List Node) (ops : List MutationOp) :
    needsUpdateLoop nodes ops = true ↔ ∃ op ∈ ops, SpecRelevantOp nodes op := by
  induction ops with
  | nil => simp [needsUpdateLoop]
  | cons op rest ih =>
      unfold needsUpdateLoop
      by_cases h : isRelevantOp nodes op
      · rw [if_pos h]
        simp only [true_iff]
        exact ⟨op, List.mem_cons_self op rest,
          (isRelevantOp_iff nodes op).mp h⟩
      · rw [if_neg h, ih]
        constructor
        · rintro ⟨op', hmem, hop'⟩
          exact ⟨op', List.mem_cons_of_mem _ hmem, hop'⟩
        · rintro ⟨op', hmem, hop'⟩
          rcases List.mem_cons.mp hmem with rfl | hmem'
          · exact absurd ((isRelevantOp_iff nodes op').mpr hop') h
          · exact ⟨op', hmem', hop'⟩

end RefMgr

namespace RefMgr

theorem computeLabels_refLabels_lookup (gen : LabelGenerator)
    (xs : List Xref) (id : String) :
    lookupA (computeLabels gen xs).1.refLabels id
      = (lookupA (computeLabels gen xs).1.order id).map gen.getLabelOne := by
  rw [computeLabels_refLabels, computeLabels_order]
  exact lookupA_map_snd gen.getLabelOne _ id

/-- Counterexample to claim C1 as stated: in `docRidMismatch` the
entry's rid ATTRIBUTE `e1` is referenced by the in-scope marker and is
assigned position 1, with `LabelGenerator(1) = "1"` — so the claim
requires the entry's stored label to be `"1"` — yet after the recompute
the entry's stored label is `""` and its position is unset, because the
source looks `refLabels`/`order` up by the entry's node id `r1`
(`refLabels[ref.id]`, `order[ref.id]`), not by its rid attribute. -/
theorem claim1_counterexample :
    docRidMismatch.refs = [⟨"r1", "e1"⟩]
    ∧ "e1" ∈ allRids (inScopeXrefs docRidMismatch)
    ∧ lookupA (computeLabels specGen
        (inScopeXrefs docRidMismatch)).1.order "e1" = some 1
    ∧ specGen.getLabelOne 1 = "1"
    ∧ ((updateCitationLabels specGen dbNone
        docRidMismatch).1.refState "r1").label = some ""
    ∧ ((updateCitationLabels specGen dbNone
        docRidMismatch).1.refState "r1").pos = none
    ∧ (some "" : Option String) ≠ some "1" :=
  ⟨rfl, by decide, by decide, rfl, by decide, by decide, by decide⟩

/-- Claim C1 (amended): after a recompute over a document with at least
one in-scope marker and distinct entry node ids, an entry whose NODE id
(not its rid attribute) occurs among the in-scope markers' rid tokens
stores `label = LabelGenerator(position)` and that position; an entry
whose node id occurs in no in-scope marker stores the empty label and
an unset position. -/
theorem claim1_entry_labels_amended (gen : LabelGenerator)
    (db : String → Option String) (d : DocState)
    (hne : inScopeXrefs d ≠ [])
    (hn : (d.refs.map RefNode.id).Nodup) {r : RefNode} (hr : r ∈ d.refs) :
    (r.id ∈ allRids (inScopeXrefs d) →
      ∃ p, lookupA (computeLabels gen (inScopeXrefs d)).1.order r.id = some p
        ∧ ((updateCitationLabels gen db d).1.refState r.id).pos = some p
        ∧ ((updateCitationLabels gen db d).1.refState r.id).label
            = some (gen.getLabelOne p))
    ∧ (r.id ∉ allRids (inScopeXrefs d) →
      ((updateCitationLabels gen db d).1.refState r.id).pos = none
      ∧ ((updateCitationLabels gen db d).1.refState r.id).label = some "") := by
  have hlen : ¬(inScopeXrefs d).length = 0 := by
    intro h0
    exact hne (List.length_eq_zero.mp h0)
  have hstate := uCL_refState_mem gen db d hlen hn hr
  constructor
  · intro hmem
    have hkeys : r.id ∈ (computeLabels gen
        (inScopeXrefs d)).1.order.map Prod.fst := by
      rw [computeLabels_order, zipFrom_map_fst]
      exact firstOccs_mem.mpr hmem
    obtain ⟨p, hp⟩ := lookupA_isSome.mpr hkeys
    have hrl : lookupA (computeLabels gen
        (inScopeXrefs d)).1.refLabels r.id = some (gen.getLabelOne p) := by
      rw [computeLabels_refLabels_lookup, hp]
      rfl
    refine ⟨p, hp, ?_, ?_⟩
    · rw [hstate]
      unfold refWriteVal
      simp [hp]
    · rw [hstate]
      unfold refWriteVal
      simp [hrl]
  · intro hnm
    have hnone : lookupA (computeLabels gen
        (inScopeXrefs d)).1.order r.id = none := by
      rw [lookupA_eq_none, computeLabels_order, zipFrom_map_fst]
      intro hmm
      exact hnm (firstOccs_mem.mp hmm)
    have hrlnone : lookupA (computeLabels gen
        (inScopeXrefs d)).1.refLabels r.id = none := by
      rw [computeLabels_refLabels_lookup, hnone]
      rfl
    rw [hstate]
    unfold refWriteVal
    constructor
    · simp [hnone]
    · simp [hrlnone]

/-- Witness for the amended C1 at `docRidMismatch`, entry `r1`. -/
theorem claim1_amended_witness :
    (inScopeXrefs docRidMismatch ≠ []
     ∧ (docRidMismatch.refs.map RefNode.id).Nodup
     ∧ (⟨"r1", "e1"⟩ : RefNode) ∈ docRidMismatch.refs)
    ∧ (((⟨"r1", "e1"⟩ : RefNode).id ∈ allRids (inScopeXrefs docRidMismatch) →
        ∃ p, lookupA (computeLabels specGen
            (inScopeXrefs docRidMismatch)).1.order
              (RefNode.id ⟨"r1", "e1"⟩) = some p
          ∧ ((updateCitationLabels specGen dbNone
              docRidMismatch).1.refState (RefNode.id ⟨"r1", "e1"⟩)).pos = some p
          ∧ ((updateCitationLabels specGen dbNone
              docRidMismatch).1.refState (RefNode.id ⟨"r1", "e1"⟩)).label
              = some (specGen.getLabelOne p))
      ∧ ((⟨"r1", "e1"⟩ : RefNode).id ∉ allRids (inScopeXrefs docRidMismatch) →
        ((updateCitationLabels specGen dbNone
            docRidMismatch).1.refState (RefNode.id ⟨"r1", "e1"⟩)).pos = none
        ∧ ((updateCitationLabels specGen dbNone
            docRidMismatch).1.refState (RefNode.id ⟨"r1", "e1"⟩)).label
            = some "")) :=
  ⟨⟨by decide, by decide, by decide⟩,
   claim1_entry_labels_amended specGen dbNone docRidMismatch (by decide)
     (by decide) (by decide)⟩

/-- Counterexample to claim C7 as stated: JS `"".split(' ')` yields
`[""]`, never the empty array, so a marker whose rid attribute is empty
gets the one-element rid list `[""]`; the empty-string identifier is
assigned a position and the marker's computed label is
`LabelGenerator([1]) = "1"`, not empty/undefined. -/
theorem claim7_counterexample :
    jsSplit "" = [""]
    ∧ (computeLabels specGen [⟨"x1", "bibr", ""⟩]).2 = [("x1", "1")]
    ∧ ("1" : String) ≠ "" :=
  ⟨by decide, by decide, by decide⟩

/-- Claim C7 (amended): a marker whose rid attribute is the empty
string yields `rids = [""]` after splitting; the empty-string
identifier is assigned a position `p` like any other identifier, the
marker's positions list is the one-element list `[p]`, and its label is
`LabelGenerator([p])`; the computation is total (it does not throw). -/
theorem claim7_empty_rid_amended (gen : LabelGenerator) (xs : List Xref)
    {x : Xref} (hx : x ∈ xs) (h0 : x.rid = "") :
    ∃ p, lookupA (computeLabels gen xs).1.order "" = some p
      ∧ (x.id, gen.getLabelList [p]) ∈ (computeLabels gen xs).2 := by
  have hsplit : jsSplit x.rid = [""] := by
    rw [h0]
    decide
  have hmem : "" ∈ allRids xs := by
    unfold allRids
    rw [List.mem_flatten]
    exact ⟨jsSplit x.rid, List.mem_map_of_mem _ hx, by rw [hsplit]; decide⟩
  have hkeys : "" ∈ (computeLabels gen xs).1.order.map Prod.fst := by
    rw [computeLabels_order, zipFrom_map_fst]
    exact firstOccs_mem.mpr hmem
  obtain ⟨p, hp⟩ := lookupA_isSome.mpr hkeys
  refine ⟨p, hp, ?_⟩
  rw [computeLabels_snd]
  have hval : (x.id, gen.getLabelList [p])
      = (fun y => (y.id, gen.getLabelList ((jsSplit y.rid).map (fun r =>
          (lookupA (computeLabels gen xs).1.order r).getD 0)))) x := by
    show (x.id, gen.getLabelList [p])
      = (x.id, gen.getLabelList ((jsSplit x.rid).map (fun r =>
          (lookupA (computeLabels gen xs).1.order r).getD 0)))
    rw [hsplit]
    simp [hp]
  rw [hval]
  exact List.mem_map_of_mem _ hx

/-- Witness for the amended C7: a single marker with an empty rid
attribute. -/
theorem claim7_amended_witness :
    ((⟨"x1", "bibr", ""⟩ : Xref) ∈ [(⟨"x1", "bibr", ""⟩ : Xref)]
     ∧ (⟨"x1", "bibr", ""⟩ : Xref).rid = "")
    ∧ ∃ p, lookupA (computeLabels specGen
        [⟨"x1", "bibr", ""⟩]).1.order "" = some p
      ∧ ((⟨"x1", "bibr", ""⟩ : Xref).id, specGen.getLabelList [p])
          ∈ (computeLabels specGen [⟨"x1", "bibr", ""⟩]).2 :=
  ⟨⟨by decide, rfl⟩,
   claim7_empty_rid_amended specGen [⟨"x1", "bibr", ""⟩] (by decide) rfl⟩

/-- Claim C3, states the source's divergence: in `docUncitedFirst` the
uncited entry `d` (position unset) precedes the cited entry `a`
(position 1) in the ref-list; the boolean comparator
`(a, b) => a.state.pos > b.state.pos` returns `false`, i.e. `0`, on
every comparison involving an unset position, so the sort leaves the
unset entry FIRST — `getBibliography` does not put unset-position
entries last as the claim requires. -/
theorem claim3_boolean_comparator_eval :
    ((updateCitationLabels specGen dbNone
        docUncitedFirst).1.refState "d").pos = none
    ∧ ((updateCitationLabels specGen dbNone
        docUncitedFirst).1.refState "a").pos = some 1
    ∧ ((getBibliography dbNone (updateCitationLabels specGen dbNone
        docUncitedFirst).1).1).map RefNode.id = ["d", "a"] :=
  ⟨by decide, by decide, by decide⟩

end RefMgr

namespace RefMgr

theorem write_enrich_idem (res : OAcc) (db : String → Option String)
    (r : RefNode) (s : RefState) :
    refWriteVal res r (enrichVal db r (refWriteVal res r (enrichVal db r s)))
      = refWriteVal res r (enrichVal db r s) := by
  rcases hs : s.entity with _ | e
  · rcases hdb : db r.rid with _ | v
    · simp [refWriteVal, enrichVal, hs, hdb]
    · simp [refWriteVal, enrichVal, hs, hdb]
  · simp [refWriteVal, enrichVal, hs]

/-- Claim C8: recomputation is idempotent.  The order/label computation
of a second recompute sees the same in-scope markers and produces the
same `order`, `refLabels` and `xrefLabels` maps, and running the full
recompute (including entity enrichment, sorting by the freshly written
positions, and write-back) a second time leaves the document state
unchanged. -/
theorem claim8_idempotent (gen : LabelGenerator)
    (db : String → Option String) (d : DocState)
    (hn : (d.refs.map RefNode.id).Nodup) :
    computeLabels gen (inScopeXrefs (updateCitationLabels gen db d).1)
      = computeLabels gen (inScopeXrefs d)
    ∧ (updateCitationLabels gen db (updateCitationLabels gen db d).1).1
      = (updateCitationLabels gen db d).1 := by
  have hscope : inScopeXrefs (updateCitationLabels gen db d).1
      = inScopeXrefs d := uCL_inScope gen db d
  refine ⟨by rw [hscope], ?_⟩
  by_cases h0 : (inScopeXrefs d).length = 0
  · have hd : (updateCitationLabels gen db d).1 = d := by
      rw [uCL_empty gen db d h0]
    rw [hd]
    exact hd
  · have h0' : ¬(inScopeXrefs (updateCitationLabels gen db d).1).length
        = 0 := by
      rw [hscope]
      exact h0
    have hrefs1 : (updateCitationLabels gen db d).1.refs = d.refs :=
      uCL_refs gen db d
    have hn1 : ((updateCitationLabels gen db d).1.refs.map
        RefNode.id).Nodup := by
      rw [hrefs1]
      exact hn
    apply DocState.ext
    · exact uCL_xrefs gen db (updateCitationLabels gen db d).1
    · rw [uCL_refs gen db (updateCitationLabels gen db d).1]
    · exact uCL_refListId gen db (updateCitationLabels gen db d).1
    · funext id
      rw [uCL_xrefLabel_eq gen db (updateCitationLabels gen db d).1 h0',
        hscope]
      unfold writeXrefLabels
      rw [foldl_update_by_key Xref.id
        (fun i => lookupA (computeLabels gen (inScopeXrefs d)).2 i)]
      by_cases hm : id ∈ (inScopeXrefs d).map Xref.id
      · rw [if_pos hm]
        rw [uCL_xrefLabel_eq gen db d h0]
        unfold writeXrefLabels
        rw [foldl_update_by_key Xref.id
          (fun i => lookupA (computeLabels gen (inScopeXrefs d)).2 i)]
        rw [if_pos hm]
      · rw [if_neg hm]
    · funext id
      by_cases hm : id ∈ d.refs.map RefNode.id
      · obtain ⟨r, hrmem, hrid⟩ := List.mem_map.mp hm
        subst hrid
        have e1 := uCL_refState_mem gen db (updateCitationLabels gen db d).1
          h0' hn1 (by rw [hrefs1]; exact hrmem)
        have e0 := uCL_refState_mem gen db d h0 hn hrmem
        rw [e1, hscope, e0]
        exact write_enrich_idem (computeLabels gen (inScopeXrefs d)).1 db r
          (d.refState r.id)
      · have e1 := @uCL_refState_not_mem gen db
          (updateCitationLabels gen db d).1 h0' id
          (by rw [hrefs1]; exact hm)
        rw [e1]

/-- Witness for C8 at `docRidMismatch`. -/
theorem claim8_witness :
    (docRidMismatch.refs.map RefNode.id).Nodup
    ∧ (computeLabels specGen
        (inScopeXrefs (updateCitationLabels specGen dbNone docRidMismatch).1)
        = computeLabels specGen (inScopeXrefs docRidMismatch)
      ∧ (updateCitationLabels specGen dbNone
          (updateCitationLabels specGen dbNone docRidMismatch).1).1
        = (updateCitationLabels specGen dbNone docRidMismatch).1) :=
  ⟨by decide, claim8_idempotent specGen dbNone docRidMismatch (by decide)⟩

end RefMgr

namespace RefMgr

/-- Counterexample to claim C2 as stated: the handler calls
`setTimeout(() => this._updateCitationLabels())` unconditionally on
every relevant notification — there is no pending flag — so two
relevant notifications delivered before any deferred recompute fires
leave TWO queued callbacks and produce TWO recompute executions, not
exactly one. -/
theorem claim2_counterexample :
    needsUpdateLoop [] relevantOps = true
    ∧ (ctrlRun specGen dbNone ctrl0
        [.notify docRidMismatch [] relevantOps,
         .notify docUncitedFirst [] relevantOps]).pending = 2
    ∧ (ctrlRun specGen dbNone ctrl0
        [.notify docRidMismatch [] relevantOps,
         .notify docUncitedFirst [] relevantOps,
         .timer, .timer]).executedOn.length = 2
    ∧ (2 : Nat) ≠ 1 :=
  ⟨by decide, by decide, by decide, by decide⟩

/-- Claim C2 (amended): each relevance-triggering notification
schedules its own deferred recompute (no coalescing), so two relevant
notifications delivered before the deferred recomputes fire result in
exactly TWO recompute executions; each execution reads the document
state current when it fires, so the first runs on the state after both
mutations and the second on the once-recomputed state (which, by
idempotence of the recompute, carries the same labels). -/
theorem claim2_two_recomputes_amended (gen : LabelGenerator)
    (db : String → Option String) (s : CtrlState) (d1 d2 : DocState)
    (ns1 ns2 : List Node) (ops1 ops2 : List MutationOp)
    (hp : s.pending = 0)
    (h1 : needsUpdateLoop ns1 ops1 = true)
    (h2 : needsUpdateLoop ns2 ops2 = true) :
    (ctrlRun gen db s [.notify d1 ns1 ops1, .notify d2 ns2 ops2,
        .timer, .timer]).executedOn
      = s.executedOn ++ [d2, (updateCitationLabels gen db d2).1]
    ∧ (ctrlRun gen db s [.notify d1 ns1 ops1, .notify d2 ns2 ops2,
        .timer, .timer]).pending = 0
    ∧ (ctrlRun gen db s [.notify d1 ns1 ops1, .notify d2 ns2 ops2,
        .timer, .timer]).doc
      = (updateCitationLabels gen db
          (updateCitationLabels gen db d2).1).1 := by
  simp [ctrlRun, ctrlStep, h1, h2, hp]

/-- Witness for the amended C2 on a concrete idle state, two concrete
post-mutation documents and a concrete relevant batch. -/
theorem claim2_amended_witness :
    (ctrl0.pending = 0 ∧ needsUpdateLoop [] relevantOps = true)
    ∧ ((ctrlRun specGen dbNone ctrl0
          [.notify docRidMismatch [] relevantOps,
           .notify docUncitedFirst [] relevantOps,
           .timer, .timer]).executedOn
        = ctrl0.executedOn ++ [docUncitedFirst,
            (updateCitationLabels specGen dbNone docUncitedFirst).1]
      ∧ (ctrlRun specGen dbNone ctrl0
          [.notify docRidMismatch [] relevantOps,
           .notify docUncitedFirst [] relevantOps,
           .timer, .timer]).pending = 0
      ∧ (ctrlRun specGen dbNone ctrl0
          [.notify docRidMismatch [] relevantOps,
           .notify docUncitedFirst [] relevantOps,
           .timer, .timer]).doc
        = (updateCitationLabels specGen dbNone
            (updateCitationLabels specGen dbNone docUncitedFirst).1).1) :=
  ⟨⟨rfl, by decide⟩,
   claim2_two_recomputes_amended specGen dbNone ctrl0 docRidMismatch
     docUncitedFirst [] [] relevantOps relevantOps rfl (by decide)
     (by decide)⟩

end RefMgr
